import Mathlib

/-!
# TickerTrail subscription / fan-out engine: a shallow embedding

This file embeds the backend of the TickerTrail repository
(`src/backend/src/price-scraper.ts` and `src/backend/src/server.ts`) in Lean 4
and proves the spec's claims about it.

Modelling conventions:
* JavaScript `Map<string, V>` values become association lists
  `List (String × V)` with `mapGet` / `mapSet` / `mapDelete` / `mapHas`
  mirroring `Map.get` / `Map.set` / `Map.delete` / `Map.has`.
* A `Set` of listener callbacks becomes a duplicate-free `List Nat`:
  a listener is identified by a natural number (function identity in JS),
  `setAdd` / `setDelete` mirror `Set.add` / `Set.delete`.
* A callback invocation `callback(price)` is represented by the event
  `(listenerId, price)`; whether a given callback throws when invoked is an
  environment parameter `raises : Nat → Bool`, and a throwing invocation is
  an `Except.error` at the point of the call.
* The Playwright pages and `setInterval` handles are represented by the sets
  of keys that currently own a page / a running interval, which is the only
  aspect of them the engine's control flow reads.
* `await`-induced interleaving of two `addTicker` calls is modelled by
  splitting `addTicker` at its single suspension point (the `await` of
  `startScrapingTicker`): `addTickerPhase1` is the code before the await,
  `addTickerOpenPath` the code from the await on.
-/

namespace TickerTrail

/-! ## JS `Map` and `Set` primitives -/

/-- `Map.get`: value stored at `k`, if any (keys are unique in a JS `Map`;
we look up the first binding). -/
def mapGet {α : Type} (m : List (String × α)) (k : String) : Option α :=
  match m with
  | [] => none
  | (k', v) :: rest => if k' = k then some v else mapGet rest k

/-- `Map.set`: replace the binding of `k` in place, or append a new one. -/
def mapSet {α : Type} (m : List (String × α)) (k : String) (v : α) :
    List (String × α) :=
  match m with
  | [] => [(k, v)]
  | (k', v') :: rest =>
    if k' = k then (k, v) :: rest else (k', v') :: mapSet rest k v

/-- `Map.delete`: remove the binding of `k`.  JS maps never hold duplicate
keys, so removing every binding of `k` is observationally the same. -/
def mapDelete {α : Type} (m : List (String × α)) (k : String) :
    List (String × α) :=
  m.filter (fun p => p.1 ≠ k)

/-- `Map.has`. -/
def mapHas {α : Type} (m : List (String × α)) (k : String) : Bool :=
  (mapGet m k).isSome

/-- `Set.add`: a JS `Set` keeps insertion order and ignores re-insertion. -/
def setAdd {α : Type} [DecidableEq α] (l : List α) (x : α) : List α :=
  if x ∈ l then l else l ++ [x]

/-- `Set.delete`. -/
def setDelete {α : Type} [DecidableEq α] (l : List α) (x : α) : List α :=
  l.filter (fun y => y ≠ x)

/-! ### Lemmas about the primitives -/

theorem mapGet_mapSet_self {α : Type} (m : List (String × α)) (k : String)
    (v : α) : mapGet (mapSet m k v) k = some v := by
  induction m with
  | nil => simp [mapSet, mapGet]
  | cons p rest ih =>
    by_cases h : p.1 = k
    · simp [mapSet, mapGet, h]
    · simp [mapSet, mapGet, h, ih]

theorem mapGet_mapSet_ne {α : Type} (m : List (String × α)) (k k' : String)
    (v : α) (h : k ≠ k') : mapGet (mapSet m k v) k' = mapGet m k' := by
  induction m with
  | nil => simp [mapSet, mapGet, h]
  | cons p rest ih =>
    by_cases hp : p.1 = k
    · simp [mapSet, mapGet, hp, h]
    · simp [mapSet, mapGet, hp, ih]

theorem mapGet_mapDelete_self {α : Type} (m : List (String × α)) (k : String) :
    mapGet (mapDelete m k) k = none := by
  induction m with
  | nil => simp [mapDelete, mapGet]
  | cons p rest ih =>
    by_cases hp : p.1 = k
    · simpa [mapDelete, mapGet, hp] using ih
    · simpa [mapDelete, mapGet, hp] using ih

theorem mapGet_mapDelete_ne {α : Type} (m : List (String × α)) (k k' : String)
    (h : k ≠ k') : mapGet (mapDelete m k) k' = mapGet m k' := by
  induction m with
  | nil => simp [mapDelete, mapGet]
  | cons p rest ih =>
    obtain ⟨a, b⟩ := p
    have h' : ¬(k = k') := h
    by_cases hp : a = k
    · simpa [mapDelete, mapGet, hp, h'] using ih
    · by_cases hq : a = k'
      · have hne : ¬(k' = k) := fun hc => h hc.symm
        simp [mapDelete, mapGet, hp, hq, hne]
      · simpa [mapDelete, mapGet, hp, hq] using ih

theorem mem_setAdd_self {α : Type} [DecidableEq α] (l : List α) (x : α) :
    x ∈ setAdd l x := by
  unfold setAdd
  split
  · assumption
  · simp

theorem setAdd_ne_nil {α : Type} [DecidableEq α] (l : List α) (x : α) :
    setAdd l x ≠ [] := by
  intro hcon
  exact (List.not_mem_nil x) (hcon ▸ mem_setAdd_self l x)

theorem mem_setAdd_iff {α : Type} [DecidableEq α] (l : List α) (x y : α) :
    y ∈ setAdd l x ↔ y ∈ l ∨ y = x := by
  unfold setAdd
  split
  · rename_i h
    constructor
    · exact Or.inl
    · intro hy
      rcases hy with hy | hy
      · exact hy
      · exact hy ▸ h
  · simp

theorem mem_setDelete_iff {α : Type} [DecidableEq α] (l : List α) (x y : α) :
    y ∈ setDelete l x ↔ y ∈ l ∧ y ≠ x := by
  simp [setDelete]

theorem setAdd_nodup {α : Type} [DecidableEq α] (l : List α) (x : α)
    (h : l.Nodup) : (setAdd l x).Nodup := by
  unfold setAdd
  split
  · exact h
  · rename_i hx
    refine List.Nodup.append h (List.nodup_singleton x) ?_
    intro a ha hax
    have : a = x := by simpa using hax
    exact hx (this ▸ ha)

theorem setDelete_nodup {α : Type} [DecidableEq α] (l : List α) (x : α)
    (h : l.Nodup) : (setDelete l x).Nodup := by
  unfold setDelete
  exact List.Nodup.filter _ h

theorem setAdd_count_self {α : Type} [DecidableEq α] (l : List α) (x : α)
    (h : l.Nodup) : (setAdd l x).count x = 1 := by
  unfold setAdd
  split
  · rename_i hx
    exact List.count_eq_one_of_mem h hx
  · rename_i hx
    have h0 : l.count x = 0 := List.count_eq_zero.mpr hx
    simp [List.count_append, h0]

theorem setAdd_idem {α : Type} [DecidableEq α] (l : List α) (x : α) :
    setAdd (setAdd l x) x = setAdd l x :=
  if_pos (mem_setAdd_self l x)

theorem setDelete_eq_self {α : Type} [DecidableEq α] (l : List α) (x : α)
    (h : x ∉ l) : setDelete l x = l := by
  induction l with
  | nil => rfl
  | cons a rest ih =>
    have hax : a ≠ x := fun hc => h (hc ▸ List.mem_cons_self a rest)
    have hrest : x ∉ rest := fun hc => h (List.mem_cons_of_mem a hc)
    simp [setDelete, hax]
    simpa [setDelete] using ih hrest

theorem setDelete_setAdd_self {α : Type} [DecidableEq α] (l : List α) (x : α)
    (h : x ∉ l) : setDelete (setAdd l x) x = l := by
  have : setAdd l x = l ++ [x] := if_neg h
  rw [this]
  unfold setDelete
  rw [List.filter_append]
  have h1 : List.filter (fun y => decide (y ≠ x)) [x] = [] := by simp
  have h2 : List.filter (fun y => decide (y ≠ x)) l = l :=
    setDelete_eq_self l x h
  rw [h1, h2, List.append_nil]

theorem not_mem_setDelete_self {α : Type} [DecidableEq α] (l : List α)
    (x : α) : x ∉ setDelete l x := by
  intro h
  exact ((mem_setDelete_iff l x x).mp h).2 rfl

theorem mapDelete_eq_self {α : Type} (m : List (String × α)) (k : String)
    (h : mapGet m k = none) : mapDelete m k = m := by
  induction m with
  | nil => rfl
  | cons p rest ih =>
    obtain ⟨a, b⟩ := p
    by_cases hp : a = k
    · simp [mapGet, hp] at h
    · have hrest : mapGet rest k = none := by simpa [mapGet, hp] using h
      simp [mapDelete, hp]
      simpa [mapDelete] using ih hrest

theorem mapDelete_mapSet_self {α : Type} (m : List (String × α)) (k : String)
    (v : α) : mapDelete (mapSet m k v) k = mapDelete m k := by
  induction m with
  | nil => simp [mapSet, mapDelete]
  | cons p rest ih =>
    obtain ⟨a, b⟩ := p
    by_cases hp : a = k
    · simp [mapSet, mapDelete, hp]
    · simp [mapSet, mapDelete, hp]
      simpa [mapDelete] using ih

/-! ## The `PriceScraper` state (`price-scraper.ts`)

Fields mirror the private fields of class `PriceScraper`:
`listeners : Map<string, Set<callback>>`, `prices : Map<string, string>`,
`intervalIds : Map<string, Timeout>` and `pages : Map<string, Page>` are kept
as the sets of keys they bind, since the engine's control flow only ever asks
which keys own a running interval / an open page. -/
structure ScraperState where
  listeners : List (String × List Nat)
  prices : List (String × String)
  intervalIds : List String
  pages : List String
deriving Repr, DecidableEq

/-- The state of a freshly constructed `PriceScraper`. -/
def ScraperState.init : ScraperState :=
  { listeners := [], prices := [], intervalIds := [], pages := [] }

/-- Outcome of one attempt to open the source session for a key, i.e. of one
run of the body of `startScrapingTicker`: the page yields a valid initial
price, or yields none / fails to load (`return false`), or the call throws
before reaching the page (e.g. `Browser not initialized`). -/
inductive OpenOutcome where
  | valid (initialPrice : String)
  | invalid
  | raise
deriving Repr, DecidableEq

/-- The `{ success: boolean; error?: string }` result of `addTicker`. -/
structure AddResult where
  success : Bool
  error : Option String
deriving Repr, DecidableEq

/-- Key construction in `addTicker` / `removeTicker`:
`` `${exchange.toUpperCase()}:${ticker.toUpperCase()}` ``. -/
def mkKey (ticker exchange : String) : String :=
  exchange.toUpper ++ ":" ++ ticker.toUpper

/-- A delivery event: listener `id` was handed price `p` by a successful
callback invocation. -/
abbrev Delivery := Nat × String

/-- `startScrapingTicker(ticker, exchange)` (lines 85-141): opens a page for
the key, and on a valid initial price caches it and starts the poll interval
(`.ok (st, true)`); when no price is found or the page fails to load, the page
is closed again and `false` is returned; when the method throws, the exception
propagates to `addTicker`'s catch (`.error`). -/
def startScrapingTicker (st : ScraperState) (key : String)
    (outcome : OpenOutcome) : Except Unit (ScraperState × Bool) :=
  match outcome with
  | .raise => .error ()
  | .invalid =>
    let st1 := { st with pages := setAdd st.pages key }
    let st2 := { st1 with pages := setDelete st1.pages key }
    .ok (st2, false)
  | .valid p =>
    let st1 := { st with pages := setAdd st.pages key }
    let st2 := { st1 with prices := mapSet st1.prices key p }
    let st3 := { st2 with intervalIds := setAdd st2.intervalIds key }
    .ok (st3, true)

/-- The `callbacks.forEach` loop of `notifyListeners` (lines 209-220): each
callback is invoked inside `try/catch`, so a throwing callback (one with
`raises cb = true`) is logged and skipped while the loop continues; the
returned list holds the successful deliveries in iteration order. -/
def notifyLoop (raises : Nat → Bool) (cbs : List Nat) (price : String) :
    List Delivery :=
  match cbs with
  | [] => []
  | cb :: rest =>
    if raises cb then notifyLoop raises rest price
    else (cb, price) :: notifyLoop raises rest price

/-- `notifyListeners(key, price)` (lines 209-220). -/
def notifyListeners (raises : Nat → Bool) (st : ScraperState)
    (key price : String) : List Delivery :=
  match mapGet st.listeners key with
  | none => []
  | some cbs => notifyLoop raises cbs price

/-- The tail of `addTicker` from line 53 on: register the callback in the
key's listener set, then replay the cached price synchronously if one exists.
The replay invocation `callback(currentPrice)` is *not* wrapped in
`try/catch`, so a throwing callback makes the whole call reject — after the
registration has already happened. -/
def registerAndReplay (raises : Nat → Bool) (st : ScraperState) (key : String)
    (cb : Nat) : ScraperState × Except Unit (AddResult × List Delivery) :=
  let cbs := (mapGet st.listeners key).getD []
  let st1 := { st with listeners := mapSet st.listeners key (setAdd cbs cb) }
  match mapGet st1.prices key with
  | some p =>
    if raises cb then (st1, .error ())
    else (st1, .ok (⟨true, none⟩, [(cb, p)]))
  | none => (st1, .ok (⟨true, none⟩, []))

/-- The guarded block of `addTicker` (lines 38-39): when the key is unseen,
an empty listener set is installed *before* the `await` of
`startScrapingTicker`; this is everything `addTicker` executes before its
only suspension point. -/
def addTickerPhase1 (st : ScraperState) (key : String) : ScraperState :=
  { st with listeners := mapSet st.listeners key [] }

/-- `addTicker`'s open path after its suspension point (lines 41-50 and
53-61): the outcome of `startScrapingTicker` is observed; on invalidity or an
exception the just-installed listener set is deleted and a failure result
with a message is returned; on success the callback is registered and the
cached initial price replayed. -/
def addTickerOpenPath (raises : Nat → Bool) (st : ScraperState)
    (ticker : String) (key : String) (cb : Nat) (outcome : OpenOutcome) :
    ScraperState × Except Unit (AddResult × List Delivery) :=
  match startScrapingTicker st key outcome with
  | .error _ =>
    ({ st with listeners := mapDelete st.listeners key },
     .ok (⟨false, some ("Failed to verify ticker " ++ ticker.toUpper)⟩, []))
  | .ok (st1, false) =>
    ({ st1 with listeners := mapDelete st1.listeners key },
     .ok (⟨false, some (ticker.toUpper ++
        " is not a valid ticker or price data is not available")⟩, []))
  | .ok (st1, true) => registerAndReplay raises st1 key cb

/-- `addTicker(ticker, exchange, callback)` (lines 32-62), run without
interruption: the number in the last component counts the `open` attempts
(`startScrapingTicker` calls) the invocation makes — `1` on the unseen-key
path, `0` when an entry for the key already exists. -/
def addTicker (raises : Nat → Bool) (st : ScraperState)
    (ticker exchange : String) (cb : Nat) (outcome : OpenOutcome) :
    ScraperState × Except Unit (AddResult × List Delivery) × Nat :=
  let key := mkKey ticker exchange
  if mapHas st.listeners key then
    let (st1, r) := registerAndReplay raises st key cb
    (st1, r, 0)
  else
    let (st1, r) :=
      addTickerOpenPath raises (addTickerPhase1 st key) ticker key cb outcome
    (st1, r, 1)

/-- `stopScrapingTicker(key)` (lines 191-207): clear the interval, close the
page if one exists, drop the cache entry.  The second component counts the
`page.close()` calls made. -/
def stopScrapingTicker (st : ScraperState) (key : String) :
    ScraperState × Nat :=
  let st1 := { st with intervalIds := setDelete st.intervalIds key }
  let closes := if key ∈ st1.pages then 1 else 0
  let st2 := { st1 with pages := setDelete st1.pages key }
  let st3 := { st2 with prices := mapDelete st2.prices key }
  (st3, closes)

/-- `removeTicker(ticker, exchange, callback)` (lines 68-83): drop the
callback from the key's set; when the set becomes empty, delete it and tear
the session down.  The second component counts `page.close()` calls. -/
def removeTicker (st : ScraperState) (ticker exchange : String) (cb : Nat) :
    ScraperState × Nat :=
  let key := mkKey ticker exchange
  match mapGet st.listeners key with
  | none => (st, 0)
  | some cbs =>
    let cbs' := setDelete cbs cb
    if cbs'.length = 0 then
      stopScrapingTicker { st with listeners := mapDelete st.listeners key } key
    else
      ({ st with listeners := mapSet st.listeners key cbs' }, 0)

/-- `getPrice(key)` (lines 64-66). -/
def getPrice (st : ScraperState) (key : String) : Option String :=
  mapGet st.prices key

/-- One tick of the `setInterval` body (lines 119-130): `readResult` is what
`extractPrice` produced (`none` when it returned `null` or threw — the body's
`try/catch` makes both a logged no-op).  A truthy price differing from the
cache updates the cache and fans out. -/
def pollTick (raises : Nat → Bool) (st : ScraperState) (key : String)
    (readResult : Option String) : ScraperState × List Delivery :=
  match readResult with
  | none => (st, [])
  | some price =>
    if price = "" then (st, [])
    else if mapGet st.prices key = some price then (st, [])
    else
      let st1 := { st with prices := mapSet st.prices key price }
      (st1, notifyListeners raises st1 key price)

/-! ## Interleaved first-subscribes

`addTicker` suspends exactly once, at `await this.startScrapingTicker(...)`.
A second `addTicker` for the same key arriving during that suspension sees the
empty listener set installed by the first call's `addTickerPhase1`, so it runs
its has-key path to completion synchronously; the first call then resumes with
`addTickerOpenPath`. -/

/-- Two `addTicker` calls for the same key, the second (caller B) arriving
while the first (caller A) is suspended at its `await`.  Returns the final
state, A's result, B's result and the total number of `open`
(`startScrapingTicker`) attempts made. -/
def concurrentFirstSubscribe (raises : Nat → Bool) (st : ScraperState)
    (ticker exchange : String) (cbA cbB : Nat) (outcome : OpenOutcome) :
    ScraperState × Except Unit (AddResult × List Delivery) ×
      Except Unit (AddResult × List Delivery) × Nat :=
  let key := mkKey ticker exchange
  let stA := addTickerPhase1 st key
  let resB := addTicker raises stA ticker exchange cbB outcome
  let resA := addTickerOpenPath raises resB.1 ticker key cbA outcome
  (resA.1, resA.2, resB.2.1, resB.2.2 + 1)

/-! ## The SSE server (`server.ts`) -/

/-- The server's mutable module state: the SSE `clients` map (client id to
its `tickers : Set<string>`), the `tickerCallbacks` map (key to the broadcast
callback registered for it, identified by number), and the shared
`PriceScraper`. -/
structure ServerState where
  clients : List (Nat × List String)
  tickerCallbacks : List (String × Nat)
  scraper : ScraperState
deriving Repr, DecidableEq

/-- The receiving loop of `broadcast(key, price)` (lines 16-30): the ids of
the clients whose ticker set holds `key`, i.e. those whose SSE stream is
written to. -/
def broadcastRecipients (clients : List (Nat × List String)) (key : String) :
    List Nat :=
  (clients.filter (fun c => key ∈ c.2)).map Prod.fst

/-- `handleSubscribe` (lines 60-117), after parsing: store the broadcast
callback, run `addTicker`; on failure drop the callback and answer 400; on
success add the key to *every* connected client's set and broadcast the
current price.  Returns the new state, the success flag of the HTTP answer,
and the recipients of the immediate broadcast. -/
def handleSubscribe (srv : ServerState) (ticker exchange : String)
    (cbId : Nat) (outcome : OpenOutcome) : ServerState × Bool × List Nat :=
  let key := mkKey ticker exchange
  let tcb1 := mapSet srv.tickerCallbacks key cbId
  let res := addTicker (fun _ => false) srv.scraper ticker exchange cbId outcome
  match res.2.1 with
  | .error _ =>
    ({ srv with tickerCallbacks := tcb1, scraper := res.1 }, false, [])
  | .ok (r, _) =>
    if r.success then
      let clients1 := srv.clients.map (fun c => (c.1, setAdd c.2 key))
      let recips :=
        match getPrice res.1 key with
        | some _ => broadcastRecipients clients1 key
        | none => []
      ({ clients := clients1, tickerCallbacks := tcb1, scraper := res.1 },
       true, recips)
    else
      ({ srv with tickerCallbacks := mapDelete tcb1 key, scraper := res.1 },
       false, [])

/-- `handleUnsubscribe` (lines 119-161), after parsing: remove the key from
*every* client's set, then look up and drop the stored callback and call
`removeTicker` with it. -/
def handleUnsubscribe (srv : ServerState) (ticker exchange : String) :
    ServerState :=
  let key := mkKey ticker exchange
  let clients1 := srv.clients.map (fun c => (c.1, setDelete c.2 key))
  match mapGet srv.tickerCallbacks key with
  | some cb =>
    { clients := clients1,
      tickerCallbacks := mapDelete srv.tickerCallbacks key,
      scraper := (removeTicker srv.scraper ticker exchange cb).1 }
  | none => { srv with clients := clients1 }

/-! ## Operation traces and the listener/session invariant -/

/-- One completed engine operation: a `subscribe` (`addTicker` run to
completion, with the open outcome the source would produce for it) or an
`unsubscribe` (`removeTicker`). -/
inductive EngineOp where
  | sub (ticker exchange : String) (cb : Nat) (outcome : OpenOutcome)
  | unsub (ticker exchange : String) (cb : Nat)
deriving Repr, DecidableEq

/-- Execute one completed operation for its state effect. -/
def execOp (raises : Nat → Bool) (st : ScraperState) : EngineOp → ScraperState
  | .sub t e cb oc => (addTicker raises st t e cb oc).1
  | .unsub t e cb => (removeTicker st t e cb).1

/-- Execute a sequence of completed operations from a starting state. -/
def execOps (raises : Nat → Bool) (st : ScraperState) (ops : List EngineOp) :
    ScraperState :=
  ops.foldl (execOp raises) st

/-- The key's listener set exists and is non-empty. -/
def listenerSetNonempty (st : ScraperState) (key : String) : Prop :=
  ∃ cbs, mapGet st.listeners key = some cbs ∧ cbs ≠ []

/-- Invariant 1 of the spec (§3), per key: the listener set is non-empty iff
the key's session is open (its poll interval runs, equivalently its page is
open), and no present-but-empty listener set exists. -/
def invariant1 (st : ScraperState) : Prop :=
  ∀ key, (listenerSetNonempty st key ↔ key ∈ st.intervalIds) ∧
    mapGet st.listeners key ≠ some [] ∧
    (key ∈ st.intervalIds ↔ key ∈ st.pages)

theorem invariant1_init : invariant1 ScraperState.init := by
  intro key
  refine ⟨?_, ?_, ?_⟩
  · constructor
    · rintro ⟨cbs, hcbs, -⟩
      simp [ScraperState.init, mapGet] at hcbs
    · intro h
      simp [ScraperState.init] at h
  · simp [ScraperState.init, mapGet]
  · simp [ScraperState.init]

theorem inv_absent {st : ScraperState} {key : String} (h : invariant1 st)
    (hk : mapGet st.listeners key = none) :
    key ∉ st.intervalIds ∧ key ∉ st.pages := by
  obtain ⟨h1, -, h3⟩ := h key
  have hno : ¬ listenerSetNonempty st key := by
    rintro ⟨cbs, hcbs, -⟩
    rw [hk] at hcbs
    exact Option.noConfusion hcbs
  have hni : key ∉ st.intervalIds := fun hi => hno (h1.mpr hi)
  exact ⟨hni, fun hp => hni (h3.mpr hp)⟩

theorem inv_present {st : ScraperState} {key : String} {cbs : List Nat}
    (h : invariant1 st) (hk : mapGet st.listeners key = some cbs) :
    cbs ≠ [] ∧ key ∈ st.intervalIds ∧ key ∈ st.pages := by
  obtain ⟨h1, h2, h3⟩ := h key
  have hne : cbs ≠ [] := fun hc => h2 (hc ▸ hk)
  have hi : key ∈ st.intervalIds := h1.mp ⟨cbs, hk, hne⟩
  exact ⟨hne, hi, h3.mp hi⟩

/-! ### State characterizations of the operations -/

theorem mapSet_mapSet_self {α : Type} (m : List (String × α)) (k : String)
    (v w : α) : mapSet (mapSet m k v) k w = mapSet m k w := by
  induction m with
  | nil => simp [mapSet]
  | cons p rest ih =>
    obtain ⟨a, b⟩ := p
    by_cases hp : a = k
    · simp [mapSet, hp]
    · simp [mapSet, hp, ih]

theorem registerAndReplay_state (raises : Nat → Bool) (st : ScraperState)
    (key : String) (cb : Nat) :
    (registerAndReplay raises st key cb).1 =
    { st with listeners := mapSet st.listeners key (setAdd ((mapGet st.listeners key).getD []) cb) } := by
  unfold registerAndReplay
  dsimp only
  split
  · split <;> rfl
  · rfl

theorem addTicker_state_has (raises : Nat → Bool) (st : ScraperState)
    (t e : String) (cb : Nat) (oc : OpenOutcome) (cbs : List Nat)
    (h : mapGet st.listeners (mkKey t e) = some cbs) :
    (addTicker raises st t e cb oc).1 =
    { st with listeners := mapSet st.listeners (mkKey t e) (setAdd cbs cb) } := by
  have hhas : mapHas st.listeners (mkKey t e) = true := by
    simp [mapHas, h]
  unfold addTicker
  simp only [hhas, if_pos]
  rw [registerAndReplay_state]
  rw [h]
  rfl

theorem addTicker_state_fresh_valid (raises : Nat → Bool) (st : ScraperState)
    (t e : String) (cb : Nat) (p : String)
    (h : mapGet st.listeners (mkKey t e) = none) :
    (addTicker raises st t e cb (.valid p)).1 =
    { listeners := mapSet st.listeners (mkKey t e) [cb],
      prices := mapSet st.prices (mkKey t e) p,
      intervalIds := setAdd st.intervalIds (mkKey t e),
      pages := setAdd st.pages (mkKey t e) } := by
  have hhas : mapHas st.listeners (mkKey t e) = false := by
    simp [mapHas, h]
  unfold addTicker
  simp only [hhas, Bool.false_eq_true, if_false]
  unfold addTickerOpenPath startScrapingTicker addTickerPhase1
  dsimp only
  rw [registerAndReplay_state]
  dsimp only
  rw [mapGet_mapSet_self, mapSet_mapSet_self]
  rfl

theorem addTicker_state_fresh_invalid (raises : Nat → Bool)
    (st : ScraperState) (t e : String) (cb : Nat)
    (h : mapGet st.listeners (mkKey t e) = none)
    (hp : mkKey t e ∉ st.pages) :
    (addTicker raises st t e cb .invalid).1 = st := by
  have hhas : mapHas st.listeners (mkKey t e) = false := by
    simp [mapHas, h]
  unfold addTicker
  simp only [hhas, Bool.false_eq_true, if_false]
  unfold addTickerOpenPath startScrapingTicker addTickerPhase1
  dsimp only
  rw [mapDelete_mapSet_self, mapDelete_eq_self _ _ h,
    setDelete_setAdd_self _ _ hp]

theorem addTicker_state_fresh_raise (raises : Nat → Bool) (st : ScraperState)
    (t e : String) (cb : Nat)
    (h : mapGet st.listeners (mkKey t e) = none) :
    (addTicker raises st t e cb .raise).1 = st := by
  have hhas : mapHas st.listeners (mkKey t e) = false := by
    simp [mapHas, h]
  unfold addTicker
  simp only [hhas, Bool.false_eq_true, if_false]
  unfold addTickerOpenPath startScrapingTicker addTickerPhase1
  dsimp only
  rw [mapDelete_mapSet_self, mapDelete_eq_self _ _ h]

theorem removeTicker_state_none (st : ScraperState) (t e : String) (cb : Nat)
    (h : mapGet st.listeners (mkKey t e) = none) :
    removeTicker st t e cb = (st, 0) := by
  simp only [removeTicker, h]

theorem removeTicker_state_last (st : ScraperState) (t e : String) (cb : Nat)
    (cbs : List Nat) (h : mapGet st.listeners (mkKey t e) = some cbs)
    (hlast : setDelete cbs cb = []) :
    removeTicker st t e cb =
    ({ listeners := mapDelete st.listeners (mkKey t e),
       prices := mapDelete st.prices (mkKey t e),
       intervalIds := setDelete st.intervalIds (mkKey t e),
       pages := setDelete st.pages (mkKey t e) },
     if mkKey t e ∈ st.pages then 1 else 0) := by
  simp only [removeTicker, h, hlast, List.length_nil, if_pos,
    stopScrapingTicker]

theorem removeTicker_state_rest (st : ScraperState) (t e : String) (cb : Nat)
    (cbs : List Nat) (h : mapGet st.listeners (mkKey t e) = some cbs)
    (hrest : setDelete cbs cb ≠ []) :
    removeTicker st t e cb =
    ({ st with listeners := mapSet st.listeners (mkKey t e) (setDelete cbs cb) }, 0) := by
  have hlen : ¬((setDelete cbs cb).length = 0) := by
    simpa [List.length_eq_zero] using hrest
  simp only [removeTicker, h, hlen, if_false]

/-! ### Fan-out lemmas -/

theorem notifyLoop_all_ok (raises : Nat → Bool) (cbs : List Nat)
    (price : String) (h : ∀ c ∈ cbs, raises c = false) :
    notifyLoop raises cbs price = cbs.map (fun c => (c, price)) := by
  induction cbs with
  | nil => rfl
  | cons c rest ih =>
    have hc : raises c = false := h c (List.mem_cons_self c rest)
    have hrest : ∀ x ∈ rest, raises x = false :=
      fun x hx => h x (List.mem_cons_of_mem c hx)
    simp [notifyLoop, hc, ih hrest]

theorem mem_notifyLoop (raises : Nat → Bool) (cbs : List Nat) (price : String)
    (c : Nat) (hc : c ∈ cbs) (hr : raises c = false) :
    (c, price) ∈ notifyLoop raises cbs price := by
  induction cbs with
  | nil => exact absurd hc (List.not_mem_nil c)
  | cons x rest ih =>
    rcases List.mem_cons.mp hc with hx | hx
    · subst hx
      simp [notifyLoop, hr]
    · by_cases hrx : raises x
      · simpa [notifyLoop, hrx] using ih hx
      · rw [show notifyLoop raises (x :: rest) price =
            (x, price) :: notifyLoop raises rest price from by
              simp [notifyLoop, hrx]]
        exact List.mem_cons_of_mem _ (ih hx)

theorem notifyLoop_raise_skip (raises : Nat → Bool) (cb : Nat)
    (rest : List Nat) (price : String) (h : raises cb = true) :
    notifyLoop raises (cb :: rest) price = notifyLoop raises rest price := by
  simp [notifyLoop, h]

theorem notifyLoop_count (raises : Nat → Bool) (cbs : List Nat)
    (price : String) (cb : Nat) (h : raises cb = false) :
    (notifyLoop raises cbs price).count (cb, price) = cbs.count cb := by
  induction cbs with
  | nil => rfl
  | cons c rest ih =>
    by_cases hc : raises c
    · have hcc : ¬(c = cb) := fun hcc => by
        rw [hcc, h] at hc
        exact Bool.noConfusion hc
      rw [notifyLoop_raise_skip raises c rest price hc, ih, List.count_cons]
      simp [hcc]
    · rw [show notifyLoop raises (c :: rest) price =
          (c, price) :: notifyLoop raises rest price from by
            simp [notifyLoop, hc]]
      rw [List.count_cons, List.count_cons, ih]
      by_cases hcc : c = cb <;> simp [hcc]

/-! ### Result characterizations of the operations -/

theorem registerAndReplay_eq_noprice (raises : Nat → Bool)
    (st : ScraperState) (key : String) (cb : Nat)
    (h : mapGet st.prices key = none) :
    registerAndReplay raises st key cb =
    ({ st with listeners := mapSet st.listeners key (setAdd ((mapGet st.listeners key).getD []) cb) },
     Except.ok (⟨true, none⟩, [])) := by
  unfold registerAndReplay
  dsimp only
  rw [h]

theorem registerAndReplay_eq_price (raises : Nat → Bool) (st : ScraperState)
    (key : String) (cb : Nat) (p : String)
    (hp : mapGet st.prices key = some p) (hr : raises cb = false) :
    registerAndReplay raises st key cb =
    ({ st with listeners := mapSet st.listeners key (setAdd ((mapGet st.listeners key).getD []) cb) },
     Except.ok (⟨true, none⟩, [(cb, p)])) := by
  unfold registerAndReplay
  dsimp only
  rw [hp]
  simp [hr]

theorem registerAndReplay_eq_price_raise (raises : Nat → Bool)
    (st : ScraperState) (key : String) (cb : Nat) (p : String)
    (hp : mapGet st.prices key = some p) (hr : raises cb = true) :
    registerAndReplay raises st key cb =
    ({ st with listeners := mapSet st.listeners key (setAdd ((mapGet st.listeners key).getD []) cb) },
     Except.error ()) := by
  unfold registerAndReplay
  dsimp only
  rw [hp]
  simp [hr]

theorem addTicker_eq_has (raises : Nat → Bool) (st : ScraperState)
    (t e : String) (cb : Nat) (oc : OpenOutcome) (cbs : List Nat)
    (h : mapGet st.listeners (mkKey t e) = some cbs) :
    addTicker raises st t e cb oc =
    ((registerAndReplay raises st (mkKey t e) cb).1,
     (registerAndReplay raises st (mkKey t e) cb).2, 0) := by
  have hhas : mapHas st.listeners (mkKey t e) = true := by
    simp [mapHas, h]
  unfold addTicker
  simp only [hhas, if_pos]

theorem addTicker_eq_fresh (raises : Nat → Bool) (st : ScraperState)
    (t e : String) (cb : Nat) (oc : OpenOutcome)
    (h : mapGet st.listeners (mkKey t e) = none) :
    addTicker raises st t e cb oc =
    ((addTickerOpenPath raises (addTickerPhase1 st (mkKey t e)) t (mkKey t e) cb oc).1,
     (addTickerOpenPath raises (addTickerPhase1 st (mkKey t e)) t (mkKey t e) cb oc).2, 1) := by
  have hhas : mapHas st.listeners (mkKey t e) = false := by
    simp [mapHas, h]
  unfold addTicker
  simp only [hhas, Bool.false_eq_true, if_false]

theorem addTickerOpenPath_raise (raises : Nat → Bool) (st : ScraperState)
    (t key : String) (cb : Nat) :
    addTickerOpenPath raises st t key cb .raise =
    ({ st with listeners := mapDelete st.listeners key },
     Except.ok (⟨false, some ("Failed to verify ticker " ++ t.toUpper)⟩, [])) :=
  rfl

theorem addTickerOpenPath_invalid (raises : Nat → Bool) (st : ScraperState)
    (t key : String) (cb : Nat) :
    addTickerOpenPath raises st t key cb .invalid =
    ({ st with listeners := mapDelete st.listeners key, pages := setDelete (setAdd st.pages key) key },
     Except.ok (⟨false, some (t.toUpper ++ " is not a valid ticker or price data is not available")⟩, [])) :=
  rfl

theorem addTickerOpenPath_valid (raises : Nat → Bool) (st : ScraperState)
    (t key : String) (cb : Nat) (p : String) :
    addTickerOpenPath raises st t key cb (.valid p) =
    registerAndReplay raises { st with pages := setAdd st.pages key, prices := mapSet st.prices key p, intervalIds := setAdd st.intervalIds key } key cb :=
  rfl

theorem notifyListeners_eq (raises : Nat → Bool) (st : ScraperState)
    (key price : String) (cbs : List Nat)
    (h : mapGet st.listeners key = some cbs) :
    notifyListeners raises st key price = notifyLoop raises cbs price := by
  unfold notifyListeners
  rw [h]

theorem pollTick_same (raises : Nat → Bool) (st : ScraperState)
    (key p : String) (hsame : mapGet st.prices key = some p) :
    pollTick raises st key (some p) = (st, []) := by
  by_cases hp : p = ""
  · simp [pollTick, hp]
  · simp [pollTick, hp, hsame]

theorem pollTick_change (raises : Nat → Bool) (st : ScraperState)
    (key p : String) (hp : ¬(p = ""))
    (hne : ¬(mapGet st.prices key = some p)) :
    pollTick raises st key (some p) =
    ({ st with prices := mapSet st.prices key p },
     notifyListeners raises { st with prices := mapSet st.prices key p } key p) := by
  simp only [pollTick, hp, hne, if_false]

theorem pollTick_count (raises : Nat → Bool) (st : ScraperState)
    (key p : String) (cbs : List Nat) (cb : Nat)
    (hcbs : mapGet st.listeners key = some cbs)
    (hr : raises cb = false) (hp : ¬(p = ""))
    (hne : ¬(mapGet st.prices key = some p)) :
    ((pollTick raises st key (some p)).2).count (cb, p) = cbs.count cb := by
  rw [pollTick_change raises st key p hp hne]
  dsimp only
  rw [notifyListeners_eq raises { st with prices := mapSet st.prices key p }
    key p cbs hcbs]
  exact notifyLoop_count raises cbs p cb hr

theorem string_append_ne_empty_right (a b : String) (hb : b ≠ "") :
    a ++ b ≠ "" := by
  intro hc
  have h0 : (a ++ b).length = 0 := by rw [hc]; rfl
  rw [String.length_append] at h0
  have hbl : b.length = 0 := by omega
  have hbd : b.data.length = 0 := hbl
  exact hb (String.ext (by simpa using List.length_eq_zero.mp hbd))

theorem string_append_ne_empty_left (a b : String) (ha : a ≠ "") :
    a ++ b ≠ "" := by
  intro hc
  have h0 : (a ++ b).length = 0 := by rw [hc]; rfl
  rw [String.length_append] at h0
  have hal : a.length = 0 := by omega
  have had : a.data.length = 0 := hal
  exact ha (String.ext (by simpa using List.length_eq_zero.mp had))

/-! ### Preservation of the invariant -/

theorem listenerSetNonempty_congr {st st' : ScraperState} {key : String}
    (hl : mapGet st'.listeners key = mapGet st.listeners key) :
    listenerSetNonempty st' key ↔ listenerSetNonempty st key := by
  unfold listenerSetNonempty
  rw [hl]

theorem invariant1_addTicker (raises : Nat → Bool) (st : ScraperState)
    (t e : String) (cb : Nat) (oc : OpenOutcome) (h : invariant1 st) :
    invariant1 (addTicker raises st t e cb oc).1 := by
  cases hget : mapGet st.listeners (mkKey t e) with
  | none =>
    obtain ⟨hint, hpag⟩ := inv_absent h hget
    cases oc with
    | raise =>
      rw [addTicker_state_fresh_raise raises st t e cb hget]
      exact h
    | invalid =>
      rw [addTicker_state_fresh_invalid raises st t e cb hget hpag]
      exact h
    | valid p =>
      rw [addTicker_state_fresh_valid raises st t e cb p hget]
      intro key
      by_cases hk : key = mkKey t e
      · subst hk
        refine ⟨?_, ?_, ?_⟩
        · constructor
          · intro _
            exact mem_setAdd_self _ _
          · intro _
            exact ⟨[cb], mapGet_mapSet_self _ _ _, by simp⟩
        · rw [mapGet_mapSet_self]
          simp
        · simp [mem_setAdd_self]
      · have hk' : mkKey t e ≠ key := fun hc => hk hc.symm
        obtain ⟨h1, h2, h3⟩ := h key
        refine ⟨?_, ?_, ?_⟩
        · rw [@listenerSetNonempty_congr st _ _ (mapGet_mapSet_ne _ _ _ _ hk')]
          rw [show (key ∈ setAdd st.intervalIds (mkKey t e)) ↔
              key ∈ st.intervalIds by simp [mem_setAdd_iff, hk]]
          exact h1
        · rw [mapGet_mapSet_ne _ _ _ _ hk']
          exact h2
        · rw [show (key ∈ setAdd st.intervalIds (mkKey t e)) ↔
              key ∈ st.intervalIds by simp [mem_setAdd_iff, hk]]
          rw [show (key ∈ setAdd st.pages (mkKey t e)) ↔
              key ∈ st.pages by simp [mem_setAdd_iff, hk]]
          exact h3
  | some cbs =>
    rw [addTicker_state_has raises st t e cb oc cbs hget]
    obtain ⟨hne, hint, hpag⟩ := inv_present h hget
    intro key
    by_cases hk : key = mkKey t e
    · subst hk
      refine ⟨?_, ?_, ?_⟩
      · constructor
        · intro _
          exact hint
        · intro _
          exact ⟨setAdd cbs cb, mapGet_mapSet_self _ _ _, setAdd_ne_nil _ _⟩
      · rw [mapGet_mapSet_self]
        intro hc
        exact setAdd_ne_nil cbs cb (Option.some.inj hc)
      · obtain ⟨-, -, h3⟩ := h (mkKey t e)
        exact h3
    · have hk' : mkKey t e ≠ key := fun hc => hk hc.symm
      obtain ⟨h1, h2, h3⟩ := h key
      exact ⟨by rw [@listenerSetNonempty_congr st _ _ (mapGet_mapSet_ne _ _ _ _ hk')]; exact h1,
        by rw [mapGet_mapSet_ne _ _ _ _ hk']; exact h2, h3⟩

theorem invariant1_removeTicker (st : ScraperState) (t e : String) (cb : Nat)
    (h : invariant1 st) : invariant1 (removeTicker st t e cb).1 := by
  cases hget : mapGet st.listeners (mkKey t e) with
  | none =>
    rw [removeTicker_state_none st t e cb hget]
    exact h
  | some cbs =>
    by_cases hlast : setDelete cbs cb = []
    · rw [removeTicker_state_last st t e cb cbs hget hlast]
      intro key
      by_cases hk : key = mkKey t e
      · subst hk
        refine ⟨?_, ?_, ?_⟩
        · constructor
          · rintro ⟨cbs', hcbs', -⟩
            rw [show mapGet ({ listeners := mapDelete st.listeners (mkKey t e), prices := mapDelete st.prices (mkKey t e), intervalIds := setDelete st.intervalIds (mkKey t e), pages := setDelete st.pages (mkKey t e) } : ScraperState).listeners (mkKey t e) = none from mapGet_mapDelete_self _ _] at hcbs'
            exact Option.noConfusion hcbs'
          · intro hin
            exact absurd hin (not_mem_setDelete_self _ _)
        · rw [show mapGet ({ listeners := mapDelete st.listeners (mkKey t e), prices := mapDelete st.prices (mkKey t e), intervalIds := setDelete st.intervalIds (mkKey t e), pages := setDelete st.pages (mkKey t e) } : ScraperState).listeners (mkKey t e) = none from mapGet_mapDelete_self _ _]
          exact fun hc => Option.noConfusion hc
        · constructor
          · intro hin
            exact absurd hin (not_mem_setDelete_self _ _)
          · intro hin
            exact absurd hin (not_mem_setDelete_self _ _)
      · have hk' : mkKey t e ≠ key := fun hc => hk hc.symm
        obtain ⟨h1, h2, h3⟩ := h key
        refine ⟨?_, ?_, ?_⟩
        · rw [@listenerSetNonempty_congr st _ _ (mapGet_mapDelete_ne _ _ _ hk')]
          rw [show (key ∈ setDelete st.intervalIds (mkKey t e)) ↔
              key ∈ st.intervalIds by simp [mem_setDelete_iff, hk]]
          exact h1
        · rw [mapGet_mapDelete_ne _ _ _ hk']
          exact h2
        · rw [show (key ∈ setDelete st.intervalIds (mkKey t e)) ↔
              key ∈ st.intervalIds by simp [mem_setDelete_iff, hk]]
          rw [show (key ∈ setDelete st.pages (mkKey t e)) ↔
              key ∈ st.pages by simp [mem_setDelete_iff, hk]]
          exact h3
    · rw [(removeTicker_state_rest st t e cb cbs hget hlast :
        removeTicker st t e cb = _)]
      obtain ⟨hne, hint, hpag⟩ := inv_present h hget
      intro key
      by_cases hk : key = mkKey t e
      · subst hk
        refine ⟨?_, ?_, ?_⟩
        · constructor
          · intro _
            exact hint
          · intro _
            exact ⟨setDelete cbs cb, mapGet_mapSet_self _ _ _, hlast⟩
        · rw [mapGet_mapSet_self]
          exact fun hc => hlast (Option.some.inj hc)
        · obtain ⟨-, -, h3⟩ := h (mkKey t e)
          exact h3
      · have hk' : mkKey t e ≠ key := fun hc => hk hc.symm
        obtain ⟨h1, h2, h3⟩ := h key
        exact ⟨by rw [@listenerSetNonempty_congr st _ _ (mapGet_mapSet_ne _ _ _ _ hk')]; exact h1,
          by rw [mapGet_mapSet_ne _ _ _ _ hk']; exact h2, h3⟩

theorem execOps_invariant1 (raises : Nat → Bool) (ops : List EngineOp) :
    ∀ st : ScraperState, invariant1 st →
      invariant1 (execOps raises st ops) := by
  induction ops with
  | nil =>
    intro st h
    exact h
  | cons op rest ih =>
    intro st h
    cases op with
    | sub t e cb oc =>
      exact ih _ (invariant1_addTicker raises st t e cb oc h)
    | unsub t e cb =>
      exact ih _ (invariant1_removeTicker st t e cb h)

/-! ## The claims -/

/-- **C1**: for every key, after each completed subscribe (`addTicker`) or
unsubscribe (`removeTicker`) operation, in any order of such operations, the
key's listener set is non-empty iff the key has an open session (a running
poll interval / an open page); in particular no state is reached in which a
listener set is present but empty with no open session, or a session is open
with no registered listener. -/
theorem C1_listener_set_iff_open_session (raises : Nat → Bool)
    (ops : List EngineOp) :
    invariant1 (execOps raises ScraperState.init ops) :=
  execOps_invariant1 raises ops ScraperState.init invariant1_init

/-- **C2** (counterexample): for a never-before-seen key, two concurrent
subscribes (the second arriving while the first's open attempt is in flight)
do make exactly one open attempt, but the callers do *not* receive the same
outcome when the key is invalid: the second caller is answered with success
while the first receives the failure result. -/
theorem C2_counterexample :
    (concurrentFirstSubscribe (fun _ => false) ScraperState.init
      "FAKEUSD" "BINANCE" 1 2 OpenOutcome.invalid).2.2.2 = 1 ∧
    (concurrentFirstSubscribe (fun _ => false) ScraperState.init
      "FAKEUSD" "BINANCE" 1 2 OpenOutcome.invalid).2.2.1 =
      Except.ok (⟨true, none⟩, []) ∧
    ∃ msg, (concurrentFirstSubscribe (fun _ => false) ScraperState.init
      "FAKEUSD" "BINANCE" 1 2 OpenOutcome.invalid).2.1 =
      Except.ok (⟨false, some msg⟩, []) := by
  have hstAget : mapGet (addTickerPhase1 ScraperState.init
      (mkKey "FAKEUSD" "BINANCE")).listeners (mkKey "FAKEUSD" "BINANCE") =
      some [] := mapGet_mapSet_self _ _ _
  have hB := addTicker_eq_has (fun _ => false)
    (addTickerPhase1 ScraperState.init (mkKey "FAKEUSD" "BINANCE"))
    "FAKEUSD" "BINANCE" 2 OpenOutcome.invalid [] hstAget
  have hrrB := registerAndReplay_eq_noprice (fun _ => false)
    (addTickerPhase1 ScraperState.init (mkKey "FAKEUSD" "BINANCE"))
    (mkKey "FAKEUSD" "BINANCE") 2 rfl
  simp only [concurrentFirstSubscribe]
  rw [hB, hrrB]
  dsimp only
  refine ⟨rfl, rfl, ?_⟩
  rw [addTickerOpenPath_invalid]
  exact ⟨"FAKEUSD".toUpper ++
    " is not a valid ticker or price data is not available", rfl⟩

/-- **C2** (amended): for a never-before-seen key, if two subscribe calls run
concurrently (the second arriving while the first is opening the source
session), exactly one open attempt is made; but the second caller is answered
with immediate success without waiting for the outcome, so when the open
succeeds both callers succeed, while when it fails the callers' outcomes
diverge (the first gets the failure, the second already got success) and the
second caller's listener registration is discarded. -/
theorem C2_one_open_second_succeeds_immediately (raises : Nat → Bool)
    (st : ScraperState) (t e : String) (cbA cbB : Nat) (oc : OpenOutcome)
    (hfresh : mapGet st.listeners (mkKey t e) = none)
    (hnoprice : mapGet st.prices (mkKey t e) = none)
    (hrA : raises cbA = false) :
    (concurrentFirstSubscribe raises st t e cbA cbB oc).2.2.2 = 1 ∧
    (concurrentFirstSubscribe raises st t e cbA cbB oc).2.2.1 =
      Except.ok (⟨true, none⟩, []) ∧
    (∀ p, oc = .valid p →
      ∃ ds, (concurrentFirstSubscribe raises st t e cbA cbB oc).2.1 =
        Except.ok (⟨true, none⟩, ds)) ∧
    ((oc = .invalid ∨ oc = .raise) →
      (∃ msg, (concurrentFirstSubscribe raises st t e cbA cbB oc).2.1 =
        Except.ok (⟨false, some msg⟩, [])) ∧
      mapGet (concurrentFirstSubscribe raises st t e cbA cbB oc).1.listeners
        (mkKey t e) = none) := by
  have hstAget : mapGet (addTickerPhase1 st (mkKey t e)).listeners
      (mkKey t e) = some [] := mapGet_mapSet_self _ _ _
  have hB := addTicker_eq_has raises (addTickerPhase1 st (mkKey t e))
    t e cbB oc [] hstAget
  have hrrB := registerAndReplay_eq_noprice raises
    (addTickerPhase1 st (mkKey t e)) (mkKey t e) cbB hnoprice
  simp only [concurrentFirstSubscribe]
  rw [hB, hrrB]
  dsimp only
  refine ⟨rfl, rfl, ?_, ?_⟩
  · rintro p rfl
    rw [addTickerOpenPath_valid]
    rw [registerAndReplay_eq_price raises _ (mkKey t e) cbA p
      (mapGet_mapSet_self _ _ _) hrA]
    exact ⟨[(cbA, p)], rfl⟩
  · rintro (rfl | rfl)
    · rw [addTickerOpenPath_invalid]
      exact ⟨⟨t.toUpper ++ " is not a valid ticker or price data is not available",
        rfl⟩, mapGet_mapDelete_self _ _⟩
    · rw [addTickerOpenPath_raise]
      exact ⟨⟨"Failed to verify ticker " ++ t.toUpper, rfl⟩,
        mapGet_mapDelete_self _ _⟩

/-- Witness for the amended C2 at a concrete input. -/
theorem C2_one_open_second_succeeds_immediately_witness :
    (mapGet ScraperState.init.listeners (mkKey "BTCUSD" "BINANCE") = none ∧
     mapGet ScraperState.init.prices (mkKey "BTCUSD" "BINANCE") = none ∧
     (fun _ : Nat => false) 1 = false) ∧
    ((concurrentFirstSubscribe (fun _ => false) ScraperState.init
      "BTCUSD" "BINANCE" 1 2 OpenOutcome.invalid).2.2.2 = 1 ∧
    (concurrentFirstSubscribe (fun _ => false) ScraperState.init
      "BTCUSD" "BINANCE" 1 2 OpenOutcome.invalid).2.2.1 =
      Except.ok (⟨true, none⟩, []) ∧
    (∀ p, OpenOutcome.invalid = OpenOutcome.valid p →
      ∃ ds, (concurrentFirstSubscribe (fun _ => false) ScraperState.init
        "BTCUSD" "BINANCE" 1 2 OpenOutcome.invalid).2.1 =
        Except.ok (⟨true, none⟩, ds)) ∧
    ((OpenOutcome.invalid = OpenOutcome.invalid ∨
      OpenOutcome.invalid = OpenOutcome.raise) →
      (∃ msg, (concurrentFirstSubscribe (fun _ => false) ScraperState.init
        "BTCUSD" "BINANCE" 1 2 OpenOutcome.invalid).2.1 =
        Except.ok (⟨false, some msg⟩, [])) ∧
      mapGet (concurrentFirstSubscribe (fun _ => false) ScraperState.init
        "BTCUSD" "BINANCE" 1 2 OpenOutcome.invalid).1.listeners
        (mkKey "BTCUSD" "BINANCE") = none)) :=
  ⟨⟨rfl, rfl, rfl⟩,
   C2_one_open_second_succeeds_immediately (fun _ => false) ScraperState.init
     "BTCUSD" "BINANCE" 1 2 OpenOutcome.invalid rfl rfl rfl⟩

/-- **C3**: subscribing a second time with the same listener to the same
already-subscribed key does not double-register it: the listener set holds
the callback exactly once, and a subsequent value change (poll tick reading a
different valid value) delivers that value to the callback exactly once. -/
theorem C3_same_listener_no_double_registration (raises : Nat → Bool)
    (st : ScraperState) (t e : String) (cb : Nat) (o1 o2 : OpenOutcome)
    (cbs : List Nat) (p : String)
    (hkey : mapGet st.listeners (mkKey t e) = some cbs)
    (hnd : cbs.Nodup) (hr : raises cb = false) (hp : ¬(p = ""))
    (hne : ¬(mapGet ((addTicker raises (addTicker raises st t e cb o1).1 t e cb o2).1).prices (mkKey t e) = some p)) :
    mapGet ((addTicker raises (addTicker raises st t e cb o1).1 t e cb o2).1).listeners (mkKey t e) = some (setAdd cbs cb) ∧
    (setAdd cbs cb).count cb = 1 ∧
    ((pollTick raises (addTicker raises (addTicker raises st t e cb o1).1 t e cb o2).1 (mkKey t e) (some p)).2).count (cb, p) = 1 := by
  have h1 := addTicker_state_has raises st t e cb o1 cbs hkey
  have hget1 : mapGet ((addTicker raises st t e cb o1).1).listeners
      (mkKey t e) = some (setAdd cbs cb) := by
    rw [h1]
    exact mapGet_mapSet_self _ _ _
  have h2 := addTicker_state_has raises (addTicker raises st t e cb o1).1
    t e cb o2 (setAdd cbs cb) hget1
  have hst2 : (addTicker raises (addTicker raises st t e cb o1).1 t e cb o2).1 =
      { st with listeners := mapSet st.listeners (mkKey t e) (setAdd cbs cb) } := by
    rw [h2, h1]
    dsimp only
    rw [mapSet_mapSet_self, setAdd_idem]
  have hget2 : mapGet ((addTicker raises (addTicker raises st t e cb o1).1 t e cb o2).1).listeners
      (mkKey t e) = some (setAdd cbs cb) := by
    rw [hst2]
    exact mapGet_mapSet_self _ _ _
  refine ⟨hget2, setAdd_count_self cbs cb hnd, ?_⟩
  rw [pollTick_count raises _ (mkKey t e) p (setAdd cbs cb) cb hget2 hr hp hne]
  exact setAdd_count_self cbs cb hnd

/-- Witness for C3 at a concrete input. -/
theorem C3_same_listener_no_double_registration_witness :
    (mapGet ([(mkKey "BTCUSD" "BINANCE", [5])]) (mkKey "BTCUSD" "BINANCE") =
      some [5] ∧ ([5] : List Nat).Nodup ∧
     (fun _ : Nat => false) 5 = false ∧ ¬(("42500" : String) = "") ∧
     ¬(mapGet ((addTicker (fun _ => false) (addTicker (fun _ => false) ⟨[(mkKey "BTCUSD" "BINANCE", [5])], [(mkKey "BTCUSD" "BINANCE", "42000")], [mkKey "BTCUSD" "BINANCE"], [mkKey "BTCUSD" "BINANCE"]⟩ "BTCUSD" "BINANCE" 5 OpenOutcome.invalid).1 "BTCUSD" "BINANCE" 5 OpenOutcome.invalid).1).prices (mkKey "BTCUSD" "BINANCE") = some "42500")) ∧
    (mapGet ((addTicker (fun _ => false) (addTicker (fun _ => false) ⟨[(mkKey "BTCUSD" "BINANCE", [5])], [(mkKey "BTCUSD" "BINANCE", "42000")], [mkKey "BTCUSD" "BINANCE"], [mkKey "BTCUSD" "BINANCE"]⟩ "BTCUSD" "BINANCE" 5 OpenOutcome.invalid).1 "BTCUSD" "BINANCE" 5 OpenOutcome.invalid).1).listeners (mkKey "BTCUSD" "BINANCE") = some (setAdd [5] 5) ∧
     (setAdd [5] 5).count 5 = 1 ∧
     ((pollTick (fun _ => false) (addTicker (fun _ => false) (addTicker (fun _ => false) ⟨[(mkKey "BTCUSD" "BINANCE", [5])], [(mkKey "BTCUSD" "BINANCE", "42000")], [mkKey "BTCUSD" "BINANCE"], [mkKey "BTCUSD" "BINANCE"]⟩ "BTCUSD" "BINANCE" 5 OpenOutcome.invalid).1 "BTCUSD" "BINANCE" 5 OpenOutcome.invalid).1 (mkKey "BTCUSD" "BINANCE") (some "42500")).2).count (5, "42500") = 1) := by
  have hkey : mapGet ([(mkKey "BTCUSD" "BINANCE", [5])])
      (mkKey "BTCUSD" "BINANCE") = some [5] :=
    mapGet_mapSet_self [] (mkKey "BTCUSD" "BINANCE") [5]
  have hprice : mapGet ([(mkKey "BTCUSD" "BINANCE", "42000")])
      (mkKey "BTCUSD" "BINANCE") = some "42000" :=
    mapGet_mapSet_self [] (mkKey "BTCUSD" "BINANCE") "42000"
  have hst1 := addTicker_state_has (fun _ => false)
    (⟨[(mkKey "BTCUSD" "BINANCE", [5])], [(mkKey "BTCUSD" "BINANCE", "42000")],
      [mkKey "BTCUSD" "BINANCE"], [mkKey "BTCUSD" "BINANCE"]⟩ : ScraperState)
    "BTCUSD" "BINANCE" 5 OpenOutcome.invalid [5] hkey
  have hget1 : mapGet ((addTicker (fun _ => false)
      (⟨[(mkKey "BTCUSD" "BINANCE", [5])], [(mkKey "BTCUSD" "BINANCE", "42000")],
        [mkKey "BTCUSD" "BINANCE"], [mkKey "BTCUSD" "BINANCE"]⟩ : ScraperState)
      "BTCUSD" "BINANCE" 5 OpenOutcome.invalid).1).listeners
      (mkKey "BTCUSD" "BINANCE") = some (setAdd [5] 5) := by
    rw [hst1]
    exact mapGet_mapSet_self _ _ _
  have hst2 := addTicker_state_has (fun _ => false) _
    "BTCUSD" "BINANCE" 5 OpenOutcome.invalid (setAdd [5] 5) hget1
  have hne : ¬(mapGet ((addTicker (fun _ => false) (addTicker (fun _ => false)
      (⟨[(mkKey "BTCUSD" "BINANCE", [5])], [(mkKey "BTCUSD" "BINANCE", "42000")],
        [mkKey "BTCUSD" "BINANCE"], [mkKey "BTCUSD" "BINANCE"]⟩ : ScraperState)
      "BTCUSD" "BINANCE" 5 OpenOutcome.invalid).1
      "BTCUSD" "BINANCE" 5 OpenOutcome.invalid).1).prices
      (mkKey "BTCUSD" "BINANCE") = some "42500") := by
    rw [hst2, hst1]
    dsimp only
    rw [hprice]
    intro hcon
    exact absurd (Option.some.inj hcon) (by decide)
  exact ⟨⟨hkey, by decide, rfl, by decide, hne⟩,
    C3_same_listener_no_double_registration (fun _ => false) _
      "BTCUSD" "BINANCE" 5 OpenOutcome.invalid OpenOutcome.invalid [5] "42500"
      hkey (by decide) rfl (by decide) hne⟩

/-- **C4**: a poll tick whose read equals the cached value (raw string
equality) delivers zero notifications and leaves the state unchanged; a tick
whose read is a valid different value updates the cache to it and then
delivers exactly one notification carrying it to each currently-registered
listener of the key. -/
theorem C4_poll_change_detection (raises : Nat → Bool) (st : ScraperState)
    (key p : String) (cbs : List Nat)
    (hcbs : mapGet st.listeners key = some cbs) (hnd : cbs.Nodup)
    (hall : ∀ c ∈ cbs, raises c = false) :
    (mapGet st.prices key = some p →
      pollTick raises st key (some p) = (st, [])) ∧
    (¬(p = "") → ¬(mapGet st.prices key = some p) →
      mapGet (pollTick raises st key (some p)).1.prices key = some p ∧
      ∀ c ∈ cbs, ((pollTick raises st key (some p)).2).count (c, p) = 1) := by
  constructor
  · intro hsame
    exact pollTick_same raises st key p hsame
  · intro hp hne
    constructor
    · rw [pollTick_change raises st key p hp hne]
      dsimp only
      exact mapGet_mapSet_self _ _ _
    · intro c hc
      rw [pollTick_count raises st key p cbs c hcbs (hall c hc) hp hne]
      exact List.count_eq_one_of_mem hnd hc

/-- Witness for C4 at a concrete input. -/
theorem C4_poll_change_detection_witness :
    (mapGet (⟨[("K", [5])], [("K", "42000")], ["K"], ["K"]⟩ : ScraperState).listeners "K" = some [5] ∧
     ([5] : List Nat).Nodup ∧
     (∀ c ∈ ([5] : List Nat), (fun _ : Nat => false) c = false)) ∧
    ((mapGet (⟨[("K", [5])], [("K", "42000")], ["K"], ["K"]⟩ : ScraperState).prices "K" = some "42500" →
      pollTick (fun _ => false) ⟨[("K", [5])], [("K", "42000")], ["K"], ["K"]⟩ "K" (some "42500") =
        (⟨[("K", [5])], [("K", "42000")], ["K"], ["K"]⟩, [])) ∧
     (¬(("42500" : String) = "") →
      ¬(mapGet (⟨[("K", [5])], [("K", "42000")], ["K"], ["K"]⟩ : ScraperState).prices "K" = some "42500") →
      mapGet (pollTick (fun _ => false) ⟨[("K", [5])], [("K", "42000")], ["K"], ["K"]⟩ "K" (some "42500")).1.prices "K" = some "42500" ∧
      ∀ c ∈ ([5] : List Nat), ((pollTick (fun _ => false) ⟨[("K", [5])], [("K", "42000")], ["K"], ["K"]⟩ "K" (some "42500")).2).count (c, "42500") = 1)) :=
  ⟨⟨by decide, by decide, by decide⟩,
   C4_poll_change_detection (fun _ => false)
     ⟨[("K", [5])], [("K", "42000")], ["K"], ["K"]⟩ "K" "42500" [5]
     (by decide) (by decide) (by decide)⟩

/-- **C5**: for a key with no existing session, when the source reports the
key invalid or opening raises, `addTicker` returns a failure result carrying
a non-empty human-readable reason and retains no state at all: the state is
unchanged — no listener set, no cache entry, no poll interval for the key. -/
theorem C5_failed_open_retains_no_state (raises : Nat → Bool)
    (st : ScraperState) (t e : String) (cb : Nat) (oc : OpenOutcome)
    (hno : mapGet st.listeners (mkKey t e) = none)
    (hnoprice : mapGet st.prices (mkKey t e) = none)
    (hnopage : mkKey t e ∉ st.pages)
    (hnoint : mkKey t e ∉ st.intervalIds)
    (hfail : oc = .invalid ∨ oc = .raise) :
    (addTicker raises st t e cb oc).1 = st ∧
    mapGet (addTicker raises st t e cb oc).1.listeners (mkKey t e) = none ∧
    getPrice (addTicker raises st t e cb oc).1 (mkKey t e) = none ∧
    mkKey t e ∉ (addTicker raises st t e cb oc).1.intervalIds ∧
    ∃ msg, (addTicker raises st t e cb oc).2.1 =
      Except.ok (⟨false, some msg⟩, []) ∧ ¬(msg = "") := by
  have hst : (addTicker raises st t e cb oc).1 = st := by
    rcases hfail with rfl | rfl
    · exact addTicker_state_fresh_invalid raises st t e cb hno hnopage
    · exact addTicker_state_fresh_raise raises st t e cb hno
  refine ⟨hst, by rw [hst]; exact hno, by rw [hst]; exact hnoprice,
    by rw [hst]; exact hnoint, ?_⟩
  rcases hfail with rfl | rfl
  · rw [addTicker_eq_fresh raises st t e cb .invalid hno]
    dsimp only
    rw [addTickerOpenPath_invalid]
    exact ⟨t.toUpper ++ " is not a valid ticker or price data is not available",
      rfl, string_append_ne_empty_right _ _ (by decide)⟩
  · rw [addTicker_eq_fresh raises st t e cb .raise hno]
    dsimp only
    rw [addTickerOpenPath_raise]
    exact ⟨"Failed to verify ticker " ++ t.toUpper,
      rfl, string_append_ne_empty_left _ _ (by decide)⟩

/-- Witness for C5 at a concrete input. -/
theorem C5_failed_open_retains_no_state_witness :
    (mapGet ScraperState.init.listeners (mkKey "FAKEUSD" "BINANCE") = none ∧
     mapGet ScraperState.init.prices (mkKey "FAKEUSD" "BINANCE") = none ∧
     mkKey "FAKEUSD" "BINANCE" ∉ ScraperState.init.pages ∧
     mkKey "FAKEUSD" "BINANCE" ∉ ScraperState.init.intervalIds ∧
     (OpenOutcome.invalid = OpenOutcome.invalid ∨
      OpenOutcome.invalid = OpenOutcome.raise)) ∧
    ((addTicker (fun _ => false) ScraperState.init "FAKEUSD" "BINANCE" 1
        OpenOutcome.invalid).1 = ScraperState.init ∧
     mapGet (addTicker (fun _ => false) ScraperState.init "FAKEUSD" "BINANCE" 1
        OpenOutcome.invalid).1.listeners (mkKey "FAKEUSD" "BINANCE") = none ∧
     getPrice (addTicker (fun _ => false) ScraperState.init "FAKEUSD" "BINANCE" 1
        OpenOutcome.invalid).1 (mkKey "FAKEUSD" "BINANCE") = none ∧
     mkKey "FAKEUSD" "BINANCE" ∉ (addTicker (fun _ => false) ScraperState.init
        "FAKEUSD" "BINANCE" 1 OpenOutcome.invalid).1.intervalIds ∧
     ∃ msg, (addTicker (fun _ => false) ScraperState.init "FAKEUSD" "BINANCE" 1
        OpenOutcome.invalid).2.1 = Except.ok (⟨false, some msg⟩, []) ∧
        ¬(msg = "")) :=
  ⟨⟨rfl, rfl, by simp [ScraperState.init], by simp [ScraperState.init],
    Or.inl rfl⟩,
   C5_failed_open_retains_no_state (fun _ => false) ScraperState.init
     "FAKEUSD" "BINANCE" 1 OpenOutcome.invalid rfl rfl
     (by simp [ScraperState.init]) (by simp [ScraperState.init])
     (Or.inl rfl)⟩

/-- **C6**: a subscribe for a key whose session is already open with a cached
value makes no new open attempt, registers the listener, synchronously
delivers the cached value to it exactly once (the `[(cb, p)]` replay list),
and returns success. -/
theorem C6_replay_on_join (raises : Nat → Bool) (st : ScraperState)
    (t e : String) (cb : Nat) (oc : OpenOutcome) (cbs : List Nat) (p : String)
    (hkey : mapGet st.listeners (mkKey t e) = some cbs)
    (hprice : mapGet st.prices (mkKey t e) = some p)
    (hr : raises cb = false) :
    addTicker raises st t e cb oc =
    ({ st with listeners := mapSet st.listeners (mkKey t e) (setAdd cbs cb) },
     Except.ok (⟨true, none⟩, [(cb, p)]), 0) ∧
    cb ∈ setAdd cbs cb := by
  refine ⟨?_, mem_setAdd_self cbs cb⟩
  rw [addTicker_eq_has raises st t e cb oc cbs hkey]
  rw [registerAndReplay_eq_price raises st (mkKey t e) cb p hprice hr]
  dsimp only
  rw [hkey]
  rfl

/-- Witness for C6 at a concrete input. -/
theorem C6_replay_on_join_witness :
    (mapGet ([(mkKey "BTCUSD" "BINANCE", [5])]) (mkKey "BTCUSD" "BINANCE") =
       some [5] ∧
     mapGet ([(mkKey "BTCUSD" "BINANCE", "42000")]) (mkKey "BTCUSD" "BINANCE") =
       some "42000" ∧
     (fun _ : Nat => false) 7 = false) ∧
    (addTicker (fun _ => false)
      ⟨[(mkKey "BTCUSD" "BINANCE", [5])], [(mkKey "BTCUSD" "BINANCE", "42000")],
        [mkKey "BTCUSD" "BINANCE"], [mkKey "BTCUSD" "BINANCE"]⟩
      "BTCUSD" "BINANCE" 7 OpenOutcome.invalid =
     ({ (⟨[(mkKey "BTCUSD" "BINANCE", [5])], [(mkKey "BTCUSD" "BINANCE", "42000")], [mkKey "BTCUSD" "BINANCE"], [mkKey "BTCUSD" "BINANCE"]⟩ : ScraperState) with listeners := mapSet [(mkKey "BTCUSD" "BINANCE", [5])] (mkKey "BTCUSD" "BINANCE") (setAdd [5] 7) },
      Except.ok (⟨true, none⟩, [(7, "42000")]), 0) ∧
     7 ∈ setAdd [5] 7) :=
  ⟨⟨mapGet_mapSet_self [] (mkKey "BTCUSD" "BINANCE") [5],
    mapGet_mapSet_self [] (mkKey "BTCUSD" "BINANCE") "42000", rfl⟩,
   C6_replay_on_join (fun _ => false)
     ⟨[(mkKey "BTCUSD" "BINANCE", [5])], [(mkKey "BTCUSD" "BINANCE", "42000")],
       [mkKey "BTCUSD" "BINANCE"], [mkKey "BTCUSD" "BINANCE"]⟩
     "BTCUSD" "BINANCE" 7 OpenOutcome.invalid [5] "42000"
     (mapGet_mapSet_self [] (mkKey "BTCUSD" "BINANCE") [5])
     (mapGet_mapSet_self [] (mkKey "BTCUSD" "BINANCE") "42000") rfl⟩

/-- **C7**: removing the last registered listener of an open key makes
exactly one `close` call on the source page, stops the poll interval, and
purges the cache entry (`getPrice` thereafter returns `none`); a further
teardown trigger for the now-absent key — another `removeTicker` or a direct
`stopScrapingTicker` — is a no-op making zero close calls, not an error. -/
theorem C7_last_unsubscribe_teardown (st : ScraperState) (t e : String)
    (cb : Nat) (cbs : List Nat)
    (hkey : mapGet st.listeners (mkKey t e) = some cbs)
    (hlast : setDelete cbs cb = [])
    (hpage : mkKey t e ∈ st.pages) :
    (removeTicker st t e cb).2 = 1 ∧
    mapGet (removeTicker st t e cb).1.listeners (mkKey t e) = none ∧
    mkKey t e ∉ (removeTicker st t e cb).1.intervalIds ∧
    getPrice (removeTicker st t e cb).1 (mkKey t e) = none ∧
    removeTicker (removeTicker st t e cb).1 t e cb =
      ((removeTicker st t e cb).1, 0) ∧
    stopScrapingTicker (removeTicker st t e cb).1 (mkKey t e) =
      ((removeTicker st t e cb).1, 0) := by
  have hr := removeTicker_state_last st t e cb cbs hkey hlast
  refine ⟨?_, ?_, ?_, ?_, ?_, ?_⟩
  · rw [hr]
    exact if_pos hpage
  · rw [hr]
    exact mapGet_mapDelete_self _ _
  · rw [hr]
    exact not_mem_setDelete_self _ _
  · rw [hr]
    exact mapGet_mapDelete_self _ _
  · rw [hr]
    exact removeTicker_state_none _ t e cb (mapGet_mapDelete_self _ _)
  · rw [hr]
    unfold stopScrapingTicker
    dsimp only
    rw [setDelete_eq_self _ _ (not_mem_setDelete_self st.intervalIds _),
      setDelete_eq_self _ _ (not_mem_setDelete_self st.pages _),
      mapDelete_eq_self _ _ (mapGet_mapDelete_self st.prices _),
      if_neg (not_mem_setDelete_self st.pages _)]

/-- Witness for C7 at a concrete input. -/
theorem C7_last_unsubscribe_teardown_witness :
    (mapGet ([(mkKey "BTCUSD" "BINANCE", [5])]) (mkKey "BTCUSD" "BINANCE") =
       some [5] ∧
     setDelete [5] 5 = [] ∧
     mkKey "BTCUSD" "BINANCE" ∈ [mkKey "BTCUSD" "BINANCE"]) ∧
    ((removeTicker ⟨[(mkKey "BTCUSD" "BINANCE", [5])], [(mkKey "BTCUSD" "BINANCE", "42000")], [mkKey "BTCUSD" "BINANCE"], [mkKey "BTCUSD" "BINANCE"]⟩ "BTCUSD" "BINANCE" 5).2 = 1 ∧
     mapGet (removeTicker ⟨[(mkKey "BTCUSD" "BINANCE", [5])], [(mkKey "BTCUSD" "BINANCE", "42000")], [mkKey "BTCUSD" "BINANCE"], [mkKey "BTCUSD" "BINANCE"]⟩ "BTCUSD" "BINANCE" 5).1.listeners (mkKey "BTCUSD" "BINANCE") = none ∧
     mkKey "BTCUSD" "BINANCE" ∉ (removeTicker ⟨[(mkKey "BTCUSD" "BINANCE", [5])], [(mkKey "BTCUSD" "BINANCE", "42000")], [mkKey "BTCUSD" "BINANCE"], [mkKey "BTCUSD" "BINANCE"]⟩ "BTCUSD" "BINANCE" 5).1.intervalIds ∧
     getPrice (removeTicker ⟨[(mkKey "BTCUSD" "BINANCE", [5])], [(mkKey "BTCUSD" "BINANCE", "42000")], [mkKey "BTCUSD" "BINANCE"], [mkKey "BTCUSD" "BINANCE"]⟩ "BTCUSD" "BINANCE" 5).1 (mkKey "BTCUSD" "BINANCE") = none ∧
     removeTicker (removeTicker ⟨[(mkKey "BTCUSD" "BINANCE", [5])], [(mkKey "BTCUSD" "BINANCE", "42000")], [mkKey "BTCUSD" "BINANCE"], [mkKey "BTCUSD" "BINANCE"]⟩ "BTCUSD" "BINANCE" 5).1 "BTCUSD" "BINANCE" 5 = ((removeTicker ⟨[(mkKey "BTCUSD" "BINANCE", [5])], [(mkKey "BTCUSD" "BINANCE", "42000")], [mkKey "BTCUSD" "BINANCE"], [mkKey "BTCUSD" "BINANCE"]⟩ "BTCUSD" "BINANCE" 5).1, 0) ∧
     stopScrapingTicker (removeTicker ⟨[(mkKey "BTCUSD" "BINANCE", [5])], [(mkKey "BTCUSD" "BINANCE", "42000")], [mkKey "BTCUSD" "BINANCE"], [mkKey "BTCUSD" "BINANCE"]⟩ "BTCUSD" "BINANCE" 5).1 (mkKey "BTCUSD" "BINANCE") = ((removeTicker ⟨[(mkKey "BTCUSD" "BINANCE", [5])], [(mkKey "BTCUSD" "BINANCE", "42000")], [mkKey "BTCUSD" "BINANCE"], [mkKey "BTCUSD" "BINANCE"]⟩ "BTCUSD" "BINANCE" 5).1, 0)) :=
  ⟨⟨mapGet_mapSet_self [] (mkKey "BTCUSD" "BINANCE") [5], by decide,
    List.mem_singleton.mpr rfl⟩,
   C7_last_unsubscribe_teardown
     ⟨[(mkKey "BTCUSD" "BINANCE", [5])], [(mkKey "BTCUSD" "BINANCE", "42000")],
       [mkKey "BTCUSD" "BINANCE"], [mkKey "BTCUSD" "BINANCE"]⟩
     "BTCUSD" "BINANCE" 5 [5]
     (mapGet_mapSet_self [] (mkKey "BTCUSD" "BINANCE") [5]) (by decide)
     (List.mem_singleton.mpr rfl)⟩

/-- **C8**: during poll-driven fan-out a listener whose callback raises does
not prevent delivery of the same value to any other (non-raising) listener of
the key; and a poll tick never touches the listener registry, the interval
set (the session keeps polling), or any other key's cache entry — the
failure stays inside the tick. -/
theorem C8_listener_failure_isolation (raises : Nat → Bool)
    (st : ScraperState) (key price : String) (cbs : List Nat) (c : Nat)
    (hcbs : mapGet st.listeners key = some cbs)
    (hc : c ∈ cbs) (hnr : raises c = false) :
    (c, price) ∈ notifyListeners raises st key price ∧
    ∀ r, (pollTick raises st key r).1.listeners = st.listeners ∧
      (pollTick raises st key r).1.intervalIds = st.intervalIds ∧
      ∀ k', ¬(k' = key) →
        mapGet (pollTick raises st key r).1.prices k' = mapGet st.prices k' := by
  constructor
  · rw [notifyListeners_eq raises st key price cbs hcbs]
    exact mem_notifyLoop raises cbs price c hc hnr
  · intro r
    cases r with
    | none => exact ⟨rfl, rfl, fun k' _ => rfl⟩
    | some p =>
      by_cases hp : p = ""
      · have hout : pollTick raises st key (some p) = (st, []) := by
          simp [pollTick, hp]
        rw [hout]
        exact ⟨rfl, rfl, fun k' _ => rfl⟩
      · by_cases hsame : mapGet st.prices key = some p
        · rw [pollTick_same raises st key p hsame]
          exact ⟨rfl, rfl, fun k' _ => rfl⟩
        · rw [pollTick_change raises st key p hp hsame]
          refine ⟨rfl, rfl, fun k' hk' => ?_⟩
          dsimp only
          exact mapGet_mapSet_ne _ _ _ _ (fun hc2 => hk' hc2.symm)

/-- Witness for C8 at a concrete input (listener 1 raises, listener 2 does
not). -/
theorem C8_listener_failure_isolation_witness :
    (mapGet (⟨[("K", [1, 2])], [("K", "42000")], ["K"], ["K"]⟩ : ScraperState).listeners "K" = some [1, 2] ∧
     2 ∈ ([1, 2] : List Nat) ∧
     (fun c : Nat => decide (c = 1)) 2 = false) ∧
    ((2, "42500") ∈ notifyListeners (fun c => decide (c = 1))
       ⟨[("K", [1, 2])], [("K", "42000")], ["K"], ["K"]⟩ "K" "42500" ∧
     ∀ r, (pollTick (fun c => decide (c = 1)) ⟨[("K", [1, 2])], [("K", "42000")], ["K"], ["K"]⟩ "K" r).1.listeners = (⟨[("K", [1, 2])], [("K", "42000")], ["K"], ["K"]⟩ : ScraperState).listeners ∧
       (pollTick (fun c => decide (c = 1)) ⟨[("K", [1, 2])], [("K", "42000")], ["K"], ["K"]⟩ "K" r).1.intervalIds = (⟨[("K", [1, 2])], [("K", "42000")], ["K"], ["K"]⟩ : ScraperState).intervalIds ∧
       ∀ k', ¬(k' = "K") →
         mapGet (pollTick (fun c => decide (c = 1)) ⟨[("K", [1, 2])], [("K", "42000")], ["K"], ["K"]⟩ "K" r).1.prices k' = mapGet (⟨[("K", [1, 2])], [("K", "42000")], ["K"], ["K"]⟩ : ScraperState).prices k') :=
  ⟨⟨by decide, by decide, by decide⟩,
   C8_listener_failure_isolation (fun c => decide (c = 1))
     ⟨[("K", [1, 2])], [("K", "42000")], ["K"], ["K"]⟩ "K" "42500" [1, 2] 2
     (by decide) (by decide) (by decide)⟩

/-- **C9** (implicit): the synchronous replay inside `addTicker` is not
exception-isolated: for a key with a cached value, a joining listener whose
callback raises makes the whole `addTicker` call reject (`Except.error`) —
after the listener has already been registered — whereas poll-driven
notification skips a raising callback and continues with the rest. -/
theorem C9_replay_not_exception_isolated (raises : Nat → Bool)
    (st : ScraperState) (t e : String) (cb : Nat) (oc : OpenOutcome)
    (cbs : List Nat) (p : String)
    (hkey : mapGet st.listeners (mkKey t e) = some cbs)
    (hprice : mapGet st.prices (mkKey t e) = some p)
    (hr : raises cb = true) :
    (addTicker raises st t e cb oc).2.1 = Except.error () ∧
    mapGet (addTicker raises st t e cb oc).1.listeners (mkKey t e) =
      some (setAdd cbs cb) ∧
    cb ∈ setAdd cbs cb ∧
    ∀ rest price2, notifyLoop raises (cb :: rest) price2 =
      notifyLoop raises rest price2 := by
  refine ⟨?_, ?_, mem_setAdd_self cbs cb,
    fun rest price2 => notifyLoop_raise_skip raises cb rest price2 hr⟩
  · rw [addTicker_eq_has raises st t e cb oc cbs hkey]
    dsimp only
    rw [registerAndReplay_eq_price_raise raises st (mkKey t e) cb p hprice hr]
  · rw [addTicker_state_has raises st t e cb oc cbs hkey]
    exact mapGet_mapSet_self _ _ _

/-- Witness for C9 at a concrete input. -/
theorem C9_replay_not_exception_isolated_witness :
    (mapGet ([(mkKey "BTCUSD" "BINANCE", [5])]) (mkKey "BTCUSD" "BINANCE") =
       some [5] ∧
     mapGet ([(mkKey "BTCUSD" "BINANCE", "42000")]) (mkKey "BTCUSD" "BINANCE") =
       some "42000" ∧
     (fun _ : Nat => true) 7 = true) ∧
    ((addTicker (fun _ => true) ⟨[(mkKey "BTCUSD" "BINANCE", [5])], [(mkKey "BTCUSD" "BINANCE", "42000")], [mkKey "BTCUSD" "BINANCE"], [mkKey "BTCUSD" "BINANCE"]⟩ "BTCUSD" "BINANCE" 7 OpenOutcome.invalid).2.1 = Except.error () ∧
     mapGet (addTicker (fun _ => true) ⟨[(mkKey "BTCUSD" "BINANCE", [5])], [(mkKey "BTCUSD" "BINANCE", "42000")], [mkKey "BTCUSD" "BINANCE"], [mkKey "BTCUSD" "BINANCE"]⟩ "BTCUSD" "BINANCE" 7 OpenOutcome.invalid).1.listeners (mkKey "BTCUSD" "BINANCE") = some (setAdd [5] 7) ∧
     7 ∈ setAdd [5] 7 ∧
     ∀ rest price2, notifyLoop (fun _ => true) (7 :: rest) price2 =
       notifyLoop (fun _ => true) rest price2) :=
  ⟨⟨mapGet_mapSet_self [] (mkKey "BTCUSD" "BINANCE") [5],
    mapGet_mapSet_self [] (mkKey "BTCUSD" "BINANCE") "42000", rfl⟩,
   C9_replay_not_exception_isolated (fun _ => true)
     ⟨[(mkKey "BTCUSD" "BINANCE", [5])], [(mkKey "BTCUSD" "BINANCE", "42000")],
       [mkKey "BTCUSD" "BINANCE"], [mkKey "BTCUSD" "BINANCE"]⟩
     "BTCUSD" "BINANCE" 7 OpenOutcome.invalid [5] "42000"
     (mapGet_mapSet_self [] (mkKey "BTCUSD" "BINANCE") [5])
     (mapGet_mapSet_self [] (mkKey "BTCUSD" "BINANCE") "42000") rfl⟩

theorem broadcastRecipients_all (clients : List (Nat × List String))
    (key : String) :
    broadcastRecipients (clients.map (fun c => (c.1, setAdd c.2 key))) key =
      clients.map Prod.fst := by
  induction clients with
  | nil => rfl
  | cons c rest ih =>
    simp only [List.map_cons, broadcastRecipients, List.filter_cons]
    rw [if_pos (by simpa using mem_setAdd_self c.2 key)]
    simp only [List.map_cons]
    rw [show ((rest.map (fun c => (c.1, setAdd c.2 key))).filter
        (fun c => key ∈ c.2)).map Prod.fst = rest.map Prod.fst from ih]

theorem handleUnsubscribe_clients (srv2 : ServerState) (t e : String) :
    (handleUnsubscribe srv2 t e).clients =
      srv2.clients.map (fun c => (c.1, setDelete c.2 (mkKey t e))) := by
  unfold handleUnsubscribe
  rcases hm : mapGet srv2.tickerCallbacks (mkKey t e) with _ | cb <;>
    simp only [hm]

/-- **C10** (implicit): a successful subscribe request adds the key to the
ticker set of *every* currently-connected SSE client, not only the
requester's, so every such client is a recipient of the key's subsequent
`broadcast`s; and an unsubscribe request removes the key from every client's
set. -/
theorem C10_subscribe_registers_all_clients (srv : ServerState)
    (t e : String) (cbId : Nat) (oc : OpenOutcome)
    (hsucc : (handleSubscribe srv t e cbId oc).2.1 = true) :
    (handleSubscribe srv t e cbId oc).1.clients =
      srv.clients.map (fun c => (c.1, setAdd c.2 (mkKey t e))) ∧
    (∀ c ∈ (handleSubscribe srv t e cbId oc).1.clients, mkKey t e ∈ c.2) ∧
    broadcastRecipients (handleSubscribe srv t e cbId oc).1.clients
      (mkKey t e) = srv.clients.map Prod.fst ∧
    ∀ srv2 : ServerState, ∀ c ∈ (handleUnsubscribe srv2 t e).clients,
      mkKey t e ∉ c.2 := by
  have hclients : (handleSubscribe srv t e cbId oc).1.clients =
      srv.clients.map (fun c => (c.1, setAdd c.2 (mkKey t e))) := by
    simp only [handleSubscribe] at hsucc ⊢
    rcases hres : (addTicker (fun _ => false) srv.scraper t e cbId oc).2.1
      with err | pr
    · rw [hres] at hsucc
      exact absurd hsucc (by simp)
    · obtain ⟨r, ds⟩ := pr
      dsimp only at hsucc ⊢
      by_cases hs : r.success = true
      · simp only [hs, if_pos]
      · rw [hres] at hsucc
        dsimp only at hsucc
        rw [if_neg hs] at hsucc
        exact absurd hsucc (by simp)
  refine ⟨hclients, ?_, ?_, ?_⟩
  · intro c hcmem
    rw [hclients] at hcmem
    obtain ⟨a, -, rfl⟩ := List.mem_map.mp hcmem
    exact mem_setAdd_self a.2 (mkKey t e)
  · rw [hclients]
    exact broadcastRecipients_all srv.clients (mkKey t e)
  · intro srv2 c hcmem
    rw [handleUnsubscribe_clients srv2 t e] at hcmem
    obtain ⟨a, -, rfl⟩ := List.mem_map.mp hcmem
    exact not_mem_setDelete_self a.2 (mkKey t e)

/-- Witness for C10 at a concrete input: two connected clients, a successful
first subscribe. -/
theorem C10_subscribe_registers_all_clients_witness :
    (handleSubscribe ⟨[(1, []), (2, [])], [], ScraperState.init⟩
      "BTCUSD" "BINANCE" 7 (OpenOutcome.valid "42000")).2.1 = true ∧
    ((handleSubscribe ⟨[(1, []), (2, [])], [], ScraperState.init⟩
        "BTCUSD" "BINANCE" 7 (OpenOutcome.valid "42000")).1.clients =
      ([(1, []), (2, [])] : List (Nat × List String)).map
        (fun c => (c.1, setAdd c.2 (mkKey "BTCUSD" "BINANCE"))) ∧
     (∀ c ∈ (handleSubscribe ⟨[(1, []), (2, [])], [], ScraperState.init⟩
        "BTCUSD" "BINANCE" 7 (OpenOutcome.valid "42000")).1.clients,
        mkKey "BTCUSD" "BINANCE" ∈ c.2) ∧
     broadcastRecipients (handleSubscribe ⟨[(1, []), (2, [])], [], ScraperState.init⟩
        "BTCUSD" "BINANCE" 7 (OpenOutcome.valid "42000")).1.clients
        (mkKey "BTCUSD" "BINANCE") =
      ([(1, []), (2, [])] : List (Nat × List String)).map Prod.fst ∧
     ∀ srv2 : ServerState, ∀ c ∈ (handleUnsubscribe srv2 "BTCUSD" "BINANCE").clients,
       mkKey "BTCUSD" "BINANCE" ∉ c.2) := by
  have hfresh : mapGet (ScraperState.init).listeners
      (mkKey "BTCUSD" "BINANCE") = none := rfl
  have hadd := addTicker_eq_fresh (fun _ => false) ScraperState.init
    "BTCUSD" "BINANCE" 7 (OpenOutcome.valid "42000") hfresh
  have hsucc : (handleSubscribe ⟨[(1, []), (2, [])], [], ScraperState.init⟩
      "BTCUSD" "BINANCE" 7 (OpenOutcome.valid "42000")).2.1 = true := by
    unfold handleSubscribe
    rw [show (⟨[(1, []), (2, [])], [], ScraperState.init⟩ : ServerState).scraper
      = ScraperState.init from rfl]
    rw [hadd]
    dsimp only
    rw [addTickerOpenPath_valid]
    rw [registerAndReplay_eq_price (fun _ => false) _ (mkKey "BTCUSD" "BINANCE")
      7 "42000" (mapGet_mapSet_self _ _ _) rfl]
    rfl
  exact ⟨hsucc, C10_subscribe_registers_all_clients
    ⟨[(1, []), (2, [])], [], ScraperState.init⟩
    "BTCUSD" "BINANCE" 7 (OpenOutcome.valid "42000") hsucc⟩

end TickerTrail
